import Mathlib

/-!
Shallow embedding of `projects/流媒体传输/RTMP优化/rtmp_optimizer.py`:
the adaptive bitrate controller (`RTMPAdaptiveBitrate`), the buffer manager
(`RTMPBufferManager`) and the congestion controller (`RTMPCongestionController`).
Python floats are modelled by exact rationals (`ℚ`), Python ints by `ℤ`,
`collections.deque(maxlen=m)` by a list truncated from the left on push.
-/

/-- Python `int()` applied to an exact rational: truncation toward zero
(the denominator of a `Rat` is positive, so `Int.tdiv` truncates the value). -/
def pyInt (q : ℚ) : ℤ := q.num.tdiv q.den

/-- Append on a `collections.deque` with maxlen `m`: push on the right,
dropping the oldest element beyond capacity. -/
def dpush {α : Type} (m : ℕ) (d : List α) (x : α) : List α :=
  let d2 := d ++ [x]
  d2.drop (d2.length - m)

/-- Python `l[-n:]`: the last `n` elements (all of them when there are fewer). -/
def lastN {α : Type} (n : ℕ) (l : List α) : List α := l.drop (l.length - n)

/-- `numpy.mean` over exact rationals (0 on the empty list, never used there). -/
def npMean (l : List ℚ) : ℚ := l.sum / l.length

/-- `numpy.var` (population variance) over exact rationals. -/
def npVar (l : List ℚ) : ℚ := npMean (l.map (fun x => (x - npMean l) ^ 2))

/-- The `RTMPStats` dataclass. -/
structure RTMPStats where
  bytes_sent : ℤ := 0
  bytes_received : ℤ := 0
  packets_sent : ℤ := 0
  packets_received : ℤ := 0
  rtt_ms : ℚ := 0
  throughput_bps : ℚ := 0
  packet_loss_rate : ℚ := 0
  buffer_level : ℤ := 0
deriving DecidableEq

/-- The `network_state` strings of `RTMPAdaptiveBitrate`. -/
inductive NetworkState where
  | stable
  | congested
  | unstable
  | degraded
deriving DecidableEq

/-- State of `RTMPAdaptiveBitrate` (the lock is not modelled). -/
structure ABState where
  current_bitrate : ℤ
  target_bitrate : ℤ
  min_bitrate : ℤ
  max_bitrate : ℤ
  stats_window : List RTMPStats
  throughput_history : List ℚ
  alpha : ℚ
  beta : ℚ
  gamma : ℚ
  network_state : NetworkState
  congestion_detected : Bool
deriving DecidableEq

/-- `RTMPAdaptiveBitrate.__init__(initial_bitrate)`. -/
def mkAdaptiveBitrate (initial_bitrate : ℤ) : ABState :=
  { current_bitrate := initial_bitrate
    target_bitrate := initial_bitrate
    min_bitrate := 500000
    max_bitrate := 8000000
    stats_window := []
    throughput_history := []
    alpha := 1/10
    beta := 1/5
    gamma := 4/5
    network_state := NetworkState.stable
    congestion_detected := false }

/-- `RTMPAdaptiveBitrate._detect_congestion`. -/
def detectCongestion (st : ABState) : ABState :=
  if st.stats_window.length < 10 then st
  else
    let recent := lastN 10 st.stats_window
    let avgLoss := npMean (recent.map RTMPStats.packet_loss_rate)
    if avgLoss > 1/20 then
      { st with congestion_detected := true, network_state := NetworkState.congested }
    else
      let rttVariance := npVar (recent.map RTMPStats.rtt_ms)
      if rttVariance > 100 then
        { st with congestion_detected := true, network_state := NetworkState.unstable }
      else if 20 ≤ st.throughput_history.length then
        let recentThroughput := npMean (lastN 10 st.throughput_history)
        let historicalThroughput :=
          npMean ((st.throughput_history.drop (st.throughput_history.length - 20)).take 10)
        if recentThroughput < historicalThroughput * (4/5) then
          { st with congestion_detected := true, network_state := NetworkState.degraded }
        else
          { st with congestion_detected := false, network_state := NetworkState.stable }
      else
        { st with congestion_detected := false, network_state := NetworkState.stable }

/-- `RTMPAdaptiveBitrate._adjust_bitrate`. -/
def adjustBitrate (st : ABState) : ABState :=
  if st.throughput_history = [] then st
  else
    let smoothedThroughput := npMean (lastN 5 st.throughput_history)
    let st1 :=
      if st.congestion_detected then
        let reductionFactor : ℚ :=
          if st.network_state = NetworkState.congested then 1/2
          else if st.network_state = NetworkState.unstable then 4/5
          else 7/10
        { st with
            target_bitrate := max st.min_bitrate (pyInt ((st.current_bitrate : ℚ) * reductionFactor)) }
      else if smoothedThroughput > (st.current_bitrate : ℚ) * (6/5) then
        { st with
            target_bitrate := min st.max_bitrate (pyInt ((st.current_bitrate : ℚ) * (11/10))) }
      else st
    { st1 with
        current_bitrate :=
          pyInt (st1.gamma * (st1.current_bitrate : ℚ) + (1 - st1.gamma) * (st1.target_bitrate : ℚ)) }

/-- `RTMPAdaptiveBitrate.update_network_stats(stats)`: append to both sliding
windows, then detect congestion, then adjust the bitrate. -/
def updateNetworkStats (s : RTMPStats) (st : ABState) : ABState :=
  adjustBitrate (detectCongestion
    { st with
        stats_window := dpush 100 st.stats_window s
        throughput_history := dpush 50 st.throughput_history s.throughput_bps })

/-- The `buffer_state` strings of `RTMPBufferManager`. -/
inductive BufState where
  | low
  | normal
  | high
deriving DecidableEq

/-- State of `RTMPBufferManager` (`dropped_packets` keeps only the count of
logged timestamps; wall-clock values are not modelled). -/
structure BMState where
  max_buffer_size : ℤ
  current_buffer_size : ℤ
  buffer_threshold_low : ℤ
  buffer_threshold_high : ℤ
  buffer_state : BufState
  drop_count : ℕ
  buffer_utilization : List ℤ
  dropped_packets : ℕ
deriving DecidableEq

/-- `RTMPBufferManager.__init__(max_buffer_size)`. -/
def mkBufferManager (max_buffer_size : ℤ) : BMState :=
  { max_buffer_size := max_buffer_size
    current_buffer_size := 0
    buffer_threshold_low := pyInt ((max_buffer_size : ℚ) * (1/5))
    buffer_threshold_high := pyInt ((max_buffer_size : ℚ) * (4/5))
    buffer_state := BufState.normal
    drop_count := 0
    buffer_utilization := []
    dropped_packets := 0 }

/-- `RTMPBufferManager.update_buffer_level(level)`. -/
def updateBufferLevel (level : ℤ) (st : BMState) : BMState :=
  { st with
      current_buffer_size := level
      buffer_utilization := st.buffer_utilization ++ [level]
      buffer_state :=
        if level ≤ st.buffer_threshold_low then BufState.low
        else if level ≥ st.buffer_threshold_high then BufState.high
        else BufState.normal }

/-- `RTMPBufferManager.should_drop_packets()`: returns the decision and the
updated state (the Python method mutates `drop_count` and the timestamp log). -/
def shouldDropPackets (st : BMState) : Bool × BMState :=
  if st.current_buffer_size ≥ st.max_buffer_size then
    (true, { st with drop_count := st.drop_count + 1, dropped_packets := st.dropped_packets + 1 })
  else
    (false, st)

/-- The `state` strings of `RTMPCongestionController`. -/
inductive CCMode where
  | slow_start
  | congestion_avoidance
  | fast_recovery
deriving DecidableEq

/-- State of `RTMPCongestionController` (`rtt_samples` is never read or
written by the modelled methods and is omitted). -/
structure CCState where
  congestion_window : ℚ
  slow_start_threshold : ℚ
  duplicate_acks : ℕ
  state : CCMode
  retransmissions : ℕ
deriving DecidableEq

/-- `RTMPCongestionController.__init__()`. -/
def mkCongestionController : CCState :=
  { congestion_window := 1000
    slow_start_threshold := 10000
    duplicate_acks := 0
    state := CCMode.slow_start
    retransmissions := 0 }

/-- `RTMPCongestionController.on_packet_loss(is_timeout)`: Python `x // 2` on a
float is `floor(x / 2)`. -/
def onPacketLoss (is_timeout : Bool) (st : CCState) : CCState :=
  if is_timeout then
    { st with
        slow_start_threshold := max ((⌊st.congestion_window / 2⌋ : ℤ) : ℚ) 2
        congestion_window := 1
        state := CCMode.slow_start
        retransmissions := st.retransmissions + 1 }
  else
    let ssthresh := max ((⌊st.congestion_window / 2⌋ : ℤ) : ℚ) 2
    { st with
        slow_start_threshold := ssthresh
        congestion_window := ssthresh + 3
        state := CCMode.fast_recovery }

/-- `RTMPCongestionController.on_ack_received(bytes_acked)`. -/
def onAckReceived (bytes_acked : ℤ) (st : CCState) : CCState :=
  if st.state = CCMode.slow_start then
    let w := st.congestion_window + 1
    { st with
        congestion_window := w
        state := if w ≥ st.slow_start_threshold then CCMode.congestion_avoidance
                 else CCMode.slow_start }
  else if st.state = CCMode.congestion_avoidance then
    { st with congestion_window := st.congestion_window + 1 / st.congestion_window }
  else
    { st with
        congestion_window := st.slow_start_threshold
        state := CCMode.congestion_avoidance }

/-- An externally driven event of the congestion controller. -/
inductive CCEvent where
  | loss (is_timeout : Bool)
  | ack (bytes_acked : ℤ)
deriving DecidableEq

/-- Apply one congestion-controller event. -/
def ccApply (st : CCState) (e : CCEvent) : CCState :=
  match e with
  | CCEvent.loss b => onPacketLoss b st
  | CCEvent.ack n => onAckReceived n st

/-- Run a sequence of events from the initial congestion-controller state. -/
def ccRun (evs : List CCEvent) : CCState :=
  evs.foldl ccApply mkCongestionController

/-! ### Basic facts about `pyInt` -/

theorem pyInt_eq_floor {q : ℚ} (h : 0 ≤ q) : pyInt q = ⌊q⌋ := by
  rw [pyInt, Int.tdiv_eq_ediv (Rat.num_nonneg.mpr h) (Int.natCast_nonneg q.den), Rat.floor_def]

theorem pyInt_intCast (n : ℤ) : pyInt ((n : ℚ)) = n := by
  rw [pyInt, Rat.num_intCast, Rat.den_intCast]
  exact Int.tdiv_one n

theorem le_pyInt {n : ℤ} {q : ℚ} (h0 : 0 ≤ q) (h : (n : ℚ) ≤ q) : n ≤ pyInt q := by
  rw [pyInt_eq_floor h0]
  exact Int.le_floor.mpr h

theorem pyInt_le {n : ℤ} {q : ℚ} (h0 : 0 ≤ q) (h : q ≤ (n : ℚ)) : pyInt q ≤ n := by
  rw [pyInt_eq_floor h0]
  calc ⌊q⌋ ≤ ⌊((n : ℤ) : ℚ)⌋ := Int.floor_le_floor h
  _ = n := Int.floor_intCast n

theorem pyInt_lt {n : ℤ} {q : ℚ} (h0 : 0 ≤ q) (h : q < (n : ℚ)) : pyInt q < n := by
  rw [pyInt_eq_floor h0]
  exact Int.floor_lt.mpr h

/-! ### Field-preservation lemmas -/

theorem detectCongestion_current (st : ABState) :
    (detectCongestion st).current_bitrate = st.current_bitrate := by
  simp only [detectCongestion]
  split_ifs <;> rfl

theorem detectCongestion_target (st : ABState) :
    (detectCongestion st).target_bitrate = st.target_bitrate := by
  simp only [detectCongestion]
  split_ifs <;> rfl

theorem detectCongestion_minmax (st : ABState) :
    (detectCongestion st).min_bitrate = st.min_bitrate ∧
    (detectCongestion st).max_bitrate = st.max_bitrate ∧
    (detectCongestion st).gamma = st.gamma ∧
    (detectCongestion st).stats_window = st.stats_window ∧
    (detectCongestion st).throughput_history = st.throughput_history := by
  simp only [detectCongestion]
  split_ifs <;> exact ⟨rfl, rfl, rfl, rfl, rfl⟩

theorem adjustBitrate_preserved (st : ABState) :
    (adjustBitrate st).min_bitrate = st.min_bitrate ∧
    (adjustBitrate st).max_bitrate = st.max_bitrate ∧
    (adjustBitrate st).gamma = st.gamma ∧
    (adjustBitrate st).stats_window = st.stats_window ∧
    (adjustBitrate st).throughput_history = st.throughput_history ∧
    (adjustBitrate st).network_state = st.network_state ∧
    (adjustBitrate st).congestion_detected = st.congestion_detected := by
  simp only [adjustBitrate]
  split_ifs <;> exact ⟨rfl, rfl, rfl, rfl, rfl, rfl, rfl⟩

theorem updateNetworkStats_window (s : RTMPStats) (st : ABState) :
    (updateNetworkStats s st).stats_window = dpush 100 st.stats_window s := by
  unfold updateNetworkStats
  rw [(adjustBitrate_preserved _).2.2.2.1, (detectCongestion_minmax _).2.2.2.1]

theorem ccApply_inv (st : CCState) (e : CCEvent)
    (h1 : 1 ≤ st.congestion_window) (h2 : 2 ≤ st.slow_start_threshold) :
    1 ≤ (ccApply st e).congestion_window ∧ 2 ≤ (ccApply st e).slow_start_threshold := by
  have hm : (2:ℚ) ≤ max ((⌊st.congestion_window / 2⌋ : ℤ) : ℚ) 2 := le_max_right _ _
  cases e with
  | loss b =>
    cases b with
    | true =>
      constructor
      · show (1:ℚ) ≤ 1
        exact le_refl 1
      · show (2:ℚ) ≤ max ((⌊st.congestion_window / 2⌋ : ℤ) : ℚ) 2
        exact hm
    | false =>
      constructor
      · show (1:ℚ) ≤ max ((⌊st.congestion_window / 2⌋ : ℤ) : ℚ) 2 + 3
        linarith
      · show (2:ℚ) ≤ max ((⌊st.congestion_window / 2⌋ : ℤ) : ℚ) 2
        exact hm
  | ack n =>
    by_cases hs : st.state = CCMode.slow_start
    · have heq : (ccApply st (CCEvent.ack n)).congestion_window = st.congestion_window + 1 ∧
          (ccApply st (CCEvent.ack n)).slow_start_threshold = st.slow_start_threshold := by
        simp [ccApply, onAckReceived, hs]
      rw [heq.1, heq.2]
      constructor <;> linarith
    · by_cases ha : st.state = CCMode.congestion_avoidance
      · have hw : (0:ℚ) < st.congestion_window := lt_of_lt_of_le zero_lt_one h1
        have hpos : (0:ℚ) < 1 / st.congestion_window := by positivity
        have heq : (ccApply st (CCEvent.ack n)).congestion_window
              = st.congestion_window + 1 / st.congestion_window ∧
            (ccApply st (CCEvent.ack n)).slow_start_threshold = st.slow_start_threshold := by
          simp [ccApply, onAckReceived, hs, ha]
        rw [heq.1, heq.2]
        constructor <;> linarith
      · have heq : (ccApply st (CCEvent.ack n)).congestion_window = st.slow_start_threshold ∧
            (ccApply st (CCEvent.ack n)).slow_start_threshold = st.slow_start_threshold := by
          simp [ccApply, onAckReceived, hs, ha]
        rw [heq.1, heq.2]
        constructor <;> linarith

theorem ccFoldl_inv (l : List CCEvent) :
    ∀ st : CCState, 1 ≤ st.congestion_window → 2 ≤ st.slow_start_threshold →
      1 ≤ (l.foldl ccApply st).congestion_window ∧
        2 ≤ (l.foldl ccApply st).slow_start_threshold := by
  induction l with
  | nil => exact fun st h1 h2 => ⟨h1, h2⟩
  | cons e rest ih =>
    intro st h1 h2
    have h := ccApply_inv st e h1 h2
    exact ih (ccApply st e) h.1 h.2

/-- Claim C2: starting from the initial congestion-controller state, the
congestion window stays at least 1 after every sequence of loss/ack events. -/
theorem congestionWindow_ge_one (evs : List CCEvent) :
    1 ≤ (ccRun evs).congestion_window :=
  (ccFoldl_inv evs mkCongestionController (by norm_num [mkCongestionController])
    (by norm_num [mkCongestionController])).1

/-- Claim C4: the drop decision is `currentSize ≥ maxSize`, a signalled drop
bumps `dropCount` by exactly one, a negative decision leaves it unchanged, and
after `updateLevel(maxSize - 1)` no drop is signalled. -/
theorem shouldDrop_iff_capacity (st : BMState) :
    ((shouldDropPackets st).1 = true ↔ st.current_buffer_size ≥ st.max_buffer_size) ∧
    ((shouldDropPackets st).1 = true →
      (shouldDropPackets st).2.drop_count = st.drop_count + 1) ∧
    ((shouldDropPackets st).1 = false →
      (shouldDropPackets st).2.drop_count = st.drop_count) ∧
    ((shouldDropPackets (updateBufferLevel (st.max_buffer_size - 1) st)).1 = false ∧
      (shouldDropPackets (updateBufferLevel (st.max_buffer_size - 1) st)).2.drop_count
        = (updateBufferLevel (st.max_buffer_size - 1) st).drop_count) := by
  have hlt : ¬ (updateBufferLevel (st.max_buffer_size - 1) st).current_buffer_size
      ≥ (updateBufferLevel (st.max_buffer_size - 1) st).max_buffer_size := by
    simp only [updateBufferLevel]
    omega
  refine ⟨?_, ?_, ?_, ?_, ?_⟩
  · by_cases h : st.current_buffer_size ≥ st.max_buffer_size <;>
      simp [shouldDropPackets, h]
  · intro h
    by_cases hc : st.current_buffer_size ≥ st.max_buffer_size
    · simp [shouldDropPackets, hc]
    · simp [shouldDropPackets, hc] at h
  · intro h
    by_cases hc : st.current_buffer_size ≥ st.max_buffer_size
    · simp [shouldDropPackets, hc] at h
    · simp [shouldDropPackets, hc]
  · simp [shouldDropPackets, hlt]
  · simp [shouldDropPackets, hlt]

/-- Witness for C4 at a concrete manager: at capacity the drop is signalled and
the counter increments by exactly one. -/
theorem shouldDrop_iff_capacity_witness :
    (shouldDropPackets (updateBufferLevel 1000 (mkBufferManager 1000))).1 = true ∧
    (shouldDropPackets (updateBufferLevel 1000 (mkBufferManager 1000))).2.drop_count
      = (updateBufferLevel 1000 (mkBufferManager 1000)).drop_count + 1 := by
  have h := shouldDrop_iff_capacity (updateBufferLevel 1000 (mkBufferManager 1000))
  have h1 : (shouldDropPackets (updateBufferLevel 1000 (mkBufferManager 1000))).1 = true := by
    refine h.1.mpr ?_
    show (1000:ℤ) ≥ 1000
    exact le_refl 1000
  exact ⟨h1, h.2.1 h1⟩

/-- Counterexample to C3 as stated: `updateLevel` accepts any integer, so one
out-of-range call already breaks `0 ≤ currentSize ≤ maxSize`. -/
theorem bufferInvariant_counterexample :
    ¬ ((updateBufferLevel 1001 (mkBufferManager 1000)).current_buffer_size
        ≤ (updateBufferLevel 1001 (mkBufferManager 1000)).max_buffer_size) := by
  show ¬ ((1001:ℤ) ≤ 1000)
  omega

theorem foldlBuffer_inv (levels : List ℤ) :
    ∀ st : BMState, levels ≠ [] → (∀ l ∈ levels, 0 ≤ l ∧ l ≤ st.max_buffer_size) →
      0 ≤ (levels.foldl (fun s l => updateBufferLevel l s) st).current_buffer_size ∧
      (levels.foldl (fun s l => updateBufferLevel l s) st).current_buffer_size
        ≤ (levels.foldl (fun s l => updateBufferLevel l s) st).max_buffer_size := by
  induction levels with
  | nil => intro st hne _; exact absurd rfl hne
  | cons l ls ih =>
    intro st _ h
    cases ls with
    | nil =>
      have hl := h l (List.mem_cons_self l [])
      simpa [updateBufferLevel] using hl
    | cons l2 ls2 =>
      have hmax : (updateBufferLevel l st).max_buffer_size = st.max_buffer_size := rfl
      refine ih (updateBufferLevel l st) (by simp) ?_
      rw [hmax]
      exact fun x hx => h x (List.mem_cons_of_mem l hx)

/-- Claim C3, amended: provided every level fed to `updateLevel` lies in
`[0, maxSize]`, the invariant `0 ≤ currentSize ≤ maxSize` holds after each
call (the code stores the level verbatim, performing no clamping). -/
theorem bufferInvariant_inRange (maxSize : ℤ) (levels : List ℤ)
    (hne : levels ≠ []) (h : ∀ l ∈ levels, 0 ≤ l ∧ l ≤ maxSize) :
    0 ≤ (levels.foldl (fun s l => updateBufferLevel l s)
        (mkBufferManager maxSize)).current_buffer_size ∧
    (levels.foldl (fun s l => updateBufferLevel l s)
        (mkBufferManager maxSize)).current_buffer_size ≤ maxSize := by
  have hm : (mkBufferManager maxSize).max_buffer_size = maxSize := rfl
  have := foldlBuffer_inv levels (mkBufferManager maxSize) hne (by rw [hm]; exact h)
  refine ⟨this.1, ?_⟩
  have hpres : ∀ (ls : List ℤ) (st : BMState),
      (ls.foldl (fun s l => updateBufferLevel l s) st).max_buffer_size
        = st.max_buffer_size := by
    intro ls
    induction ls with
    | nil => exact fun st => rfl
    | cons x xs ihx => exact fun st => ihx (updateBufferLevel x st)
  have h2 := this.2
  rw [hpres levels (mkBufferManager maxSize), hm] at h2
  exact h2

/-- Witness for C3 (amended) at `maxSize = 1000`, feeding the single level 500. -/
theorem bufferInvariant_inRange_witness :
    0 ≤ (([500] : List ℤ).foldl (fun s l => updateBufferLevel l s)
        (mkBufferManager 1000)).current_buffer_size ∧
    (([500] : List ℤ).foldl (fun s l => updateBufferLevel l s)
        (mkBufferManager 1000)).current_buffer_size ≤ 1000 :=
  bufferInvariant_inRange 1000 [500] (by simp)
    (by intro l hl; simp at hl; omega)

/-- Counterexample to C7 as stated: at window 15 the code floors the halved
window (`w // 2`), so the new threshold is 7, not `max(15/2, 2) = 7.5`. -/
theorem onPacketLoss_counterexample :
    (onPacketLoss true { mkCongestionController with
        congestion_window := 15 }).slow_start_threshold ≠ max ((15:ℚ) / 2) 2 := by
  show max ((⌊(15:ℚ) / 2⌋ : ℤ) : ℚ) 2 ≠ max ((15:ℚ) / 2) 2
  rw [show ⌊(15:ℚ) / 2⌋ = 7 by rw [Int.floor_eq_iff] <;> norm_num]
  rw [max_eq_left (by norm_num : (2:ℚ) ≤ ((7:ℤ) : ℚ)),
    max_eq_left (by norm_num : (2:ℚ) ≤ (15:ℚ) / 2)]
  norm_num

/-- Claim C7, amended: `on_packet_loss` sets the threshold to
`max(⌊w/2⌋, 2)` (floor division), then either resets to slow start (timeout)
or enters fast recovery at threshold + 3; at window 16 the timeout path gives
threshold 8, window 1, slow start. -/
theorem onPacketLoss_spec (st : CCState) (b : Bool) :
    ((onPacketLoss b st).slow_start_threshold
        = max ((⌊st.congestion_window / 2⌋ : ℤ) : ℚ) 2) ∧
    (b = true → (onPacketLoss b st).congestion_window = 1 ∧
      (onPacketLoss b st).state = CCMode.slow_start) ∧
    (b = false → (onPacketLoss b st).congestion_window
        = (onPacketLoss b st).slow_start_threshold + 3 ∧
      (onPacketLoss b st).state = CCMode.fast_recovery) ∧
    (st.congestion_window = 16 → b = true →
      (onPacketLoss b st).slow_start_threshold = 8 ∧
      (onPacketLoss b st).congestion_window = 1 ∧
      (onPacketLoss b st).state = CCMode.slow_start) := by
  cases b with
  | true =>
    refine ⟨rfl, fun _ => ⟨rfl, rfl⟩, fun h => absurd h (by simp), fun h16 _ => ?_⟩
    refine ⟨?_, rfl, rfl⟩
    show max ((⌊st.congestion_window / 2⌋ : ℤ) : ℚ) 2 = 8
    rw [h16, show ⌊(16:ℚ) / 2⌋ = 8 by rw [Int.floor_eq_iff] <;> norm_num]
    rw [max_eq_left (by norm_num : (2:ℚ) ≤ ((8:ℤ) : ℚ))]
    norm_num
  | false =>
    exact ⟨rfl, fun h => absurd h (by simp), fun _ => ⟨rfl, rfl⟩,
      fun _ h => absurd h (by simp)⟩

/-- Witness for C7 (amended) at the scenario input: timeout loss at window 16. -/
theorem onPacketLoss_spec_witness :
    (onPacketLoss true { mkCongestionController with
        congestion_window := 16 }).slow_start_threshold = 8 ∧
    (onPacketLoss true { mkCongestionController with
        congestion_window := 16 }).congestion_window = 1 ∧
    (onPacketLoss true { mkCongestionController with
        congestion_window := 16 }).state = CCMode.slow_start :=
  (onPacketLoss_spec { mkCongestionController with congestion_window := 16 } true).2.2.2
    rfl rfl

theorem mkBufferManager_1000_thresholds :
    (mkBufferManager 1000).buffer_threshold_low = 200 ∧
    (mkBufferManager 1000).buffer_threshold_high = 800 := by
  constructor
  · show pyInt (((1000:ℤ) : ℚ) * (1/5)) = 200
    rw [show (((1000:ℤ) : ℚ) * (1/5)) = ((200:ℤ) : ℚ) by norm_num, pyInt_intCast]
  · show pyInt (((1000:ℤ) : ℚ) * (4/5)) = 800
    rw [show (((1000:ℤ) : ℚ) * (4/5)) = ((800:ℤ) : ℚ) by norm_num, pyInt_intCast]

theorem updateBufferLevel_state (level : ℤ) (st : BMState) :
    (updateBufferLevel level st).buffer_state =
      if level ≤ st.buffer_threshold_low then BufState.low
      else if level ≥ st.buffer_threshold_high then BufState.high
      else BufState.normal := rfl

theorem buffer_m2_state_low :
    (updateBufferLevel 150 (updateBufferLevel 850 (mkBufferManager 1000))).buffer_state
      = BufState.low := by
  rw [updateBufferLevel_state]
  have hL : (updateBufferLevel 850 (mkBufferManager 1000)).buffer_threshold_low = 200 :=
    mkBufferManager_1000_thresholds.1
  rw [hL, if_pos (by omega : (150:ℤ) ≤ 200)]

/-- Counterexample to C6 as stated: in the scenario with `maxSize = 1000`,
`updateLevel(150)` yields state `low` (150 ≤ 200), not `normal`. -/
theorem bufferState_150_not_normal :
    (updateBufferLevel 150 (updateBufferLevel 850 (mkBufferManager 1000))).buffer_state
      ≠ BufState.normal := by
  rw [buffer_m2_state_low]
  exact fun h => BufState.noConfusion h

/-- Claim C6, amended: with `maxSize = 1000`, `updateLevel(850)` yields `high`,
`updateLevel(150)` yields `low` (at or below the 20% threshold 200),
`updateLevel(190)` yields `low`, and a mid-range `updateLevel(500)` yields
`normal`; the state is recomputed from the raw level on every call. -/
theorem bufferState_scenario :
    (updateBufferLevel 850 (mkBufferManager 1000)).buffer_state = BufState.high ∧
    (updateBufferLevel 150 (updateBufferLevel 850
        (mkBufferManager 1000))).buffer_state = BufState.low ∧
    (updateBufferLevel 190 (updateBufferLevel 150 (updateBufferLevel 850
        (mkBufferManager 1000)))).buffer_state = BufState.low ∧
    (updateBufferLevel 500 (updateBufferLevel 190 (updateBufferLevel 150
        (updateBufferLevel 850 (mkBufferManager 1000))))).buffer_state
      = BufState.normal := by
  have hL : (mkBufferManager 1000).buffer_threshold_low = 200 :=
    mkBufferManager_1000_thresholds.1
  have hH : (mkBufferManager 1000).buffer_threshold_high = 800 :=
    mkBufferManager_1000_thresholds.2
  refine ⟨?_, buffer_m2_state_low, ?_, ?_⟩
  · rw [updateBufferLevel_state, hL, hH,
      if_neg (by omega : ¬ (850:ℤ) ≤ 200), if_pos (by omega : (850:ℤ) ≥ 800)]
  · rw [updateBufferLevel_state]
    have hL3 : (updateBufferLevel 150 (updateBufferLevel 850
        (mkBufferManager 1000))).buffer_threshold_low = 200 := hL
    rw [hL3, if_pos (by omega : (190:ℤ) ≤ 200)]
  · rw [updateBufferLevel_state]
    have hL4 : (updateBufferLevel 190 (updateBufferLevel 150 (updateBufferLevel 850
        (mkBufferManager 1000)))).buffer_threshold_low = 200 := hL
    have hH4 : (updateBufferLevel 190 (updateBufferLevel 150 (updateBufferLevel 850
        (mkBufferManager 1000)))).buffer_threshold_high = 800 := hH
    rw [hL4, hH4, if_neg (by omega : ¬ (500:ℤ) ≤ 200),
      if_neg (by omega : ¬ (500:ℤ) ≥ 800)]

/-- Claim C9, amended: the code performs no input validation — `updateLevel`
stores any integer level verbatim and `update` appends any sample to the stats
window regardless of `packetLossRate`; no error is surfaced. -/
theorem invalidInputs_silentlyAccepted :
    (∀ (level : ℤ) (st : BMState),
      (updateBufferLevel level st).current_buffer_size = level) ∧
    (∀ (s : RTMPStats) (st : ABState),
      (updateNetworkStats s st).stats_window = dpush 100 st.stats_window s) :=
  ⟨fun _ _ => rfl, fun s st => updateNetworkStats_window s st⟩

/-- Counterexample to C9 as stated: a negative buffer level and a sample with
loss rate 2 are silently accepted, not rejected. -/
theorem invalidInputs_counterexample :
    (updateBufferLevel (-1) (mkBufferManager 1000)).current_buffer_size = -1 ∧
    (updateNetworkStats { packet_loss_rate := 2 }
        (mkAdaptiveBitrate 3000000)).stats_window = [{ packet_loss_rate := 2 }] := by
  constructor
  · rfl
  · rw [updateNetworkStats_window]
    rfl

/-- The scenario sample of the spec: zero loss, zero RTT, 4 Mbps throughput
(greater than 1.2 × the initial 3 Mbps bitrate). -/
def sC5 : RTMPStats := { throughput_bps := 4000000 }

theorem updC5_target :
    (updateNetworkStats sC5 (mkAdaptiveBitrate 3000000)).target_bitrate = 3300000 := by
  norm_num [updateNetworkStats, detectCongestion, adjustBitrate, mkAdaptiveBitrate,
    dpush, lastN, npMean, npVar, sC5, pyInt]

theorem updC5_current :
    (updateNetworkStats sC5 (mkAdaptiveBitrate 3000000)).current_bitrate = 3060000 := by
  norm_num [updateNetworkStats, detectCongestion, adjustBitrate, mkAdaptiveBitrate,
    dpush, lastN, npMean, npVar, sC5, pyInt]

theorem updC5_networkState :
    (updateNetworkStats sC5 (mkAdaptiveBitrate 3000000)).network_state
      = NetworkState.stable ∧
    (updateNetworkStats sC5 (mkAdaptiveBitrate 3000000)).congestion_detected = false := by
  constructor <;>
    norm_num [updateNetworkStats, detectCongestion, adjustBitrate, mkAdaptiveBitrate,
      dpush, lastN, npMean, npVar, sC5, pyInt]

/-- Claim C5: from initial bitrate 3 000 000, one update with a zero-loss
sample of throughput 4 000 000 (> 1.2 × current) sets the target to
`min(8 000 000, int(3 000 000 × 1.1)) = 3 300 000` and the smoothed current
bitrate to `int(0.8 × 3 000 000 + 0.2 × 3 300 000) = 3 060 000`. -/
theorem bitrate_scenario_one_tick :
    (updateNetworkStats sC5 (mkAdaptiveBitrate 3000000)).target_bitrate = 3300000 ∧
    (updateNetworkStats sC5 (mkAdaptiveBitrate 3000000)).current_bitrate = 3060000 :=
  ⟨updC5_target, updC5_current⟩

/-- Claim C10: with fewer than 10 samples in the (post-append) stats window,
an update leaves `network_state` and `congestion_detected` unchanged, yet the
adjustment step still runs: a single first sample with throughput above
1.2 × current already changes the current bitrate. -/
theorem detection_skipped_short_window :
    (∀ (s : RTMPStats) (st : ABState), (dpush 100 st.stats_window s).length < 10 →
      (updateNetworkStats s st).network_state = st.network_state ∧
      (updateNetworkStats s st).congestion_detected = st.congestion_detected) ∧
    ((updateNetworkStats sC5 (mkAdaptiveBitrate 3000000)).current_bitrate ≠ 3000000 ∧
      (updateNetworkStats sC5 (mkAdaptiveBitrate 3000000)).network_state
        = (mkAdaptiveBitrate 3000000).network_state) := by
  refine ⟨?_, ?_, ?_⟩
  · intro s st hlen
    unfold updateNetworkStats
    rw [(adjustBitrate_preserved _).2.2.2.2.2.1, (adjustBitrate_preserved _).2.2.2.2.2.2]
    rw [show detectCongestion { st with
        stats_window := dpush 100 st.stats_window s
        throughput_history := dpush 50 st.throughput_history s.throughput_bps }
      = { st with
          stats_window := dpush 100 st.stats_window s
          throughput_history := dpush 50 st.throughput_history s.throughput_bps } by
        unfold detectCongestion
        rw [if_pos hlen]]
    exact ⟨rfl, rfl⟩
  · rw [updC5_current]
    omega
  · rw [updC5_networkState.1]
    rfl

/-- Witness for C10: the first sample always leaves the (empty-window)
detection state untouched. -/
theorem detection_skipped_short_window_witness :
    (updateNetworkStats sC5 (mkAdaptiveBitrate 3000000)).network_state
      = (mkAdaptiveBitrate 3000000).network_state ∧
    (updateNetworkStats sC5 (mkAdaptiveBitrate 3000000)).congestion_detected
      = (mkAdaptiveBitrate 3000000).congestion_detected :=
  detection_skipped_short_window.1 sC5 (mkAdaptiveBitrate 3000000)
    (by norm_num [dpush, mkAdaptiveBitrate])

/-- A sample whose fields are all zero. -/
def sZero : RTMPStats := {}

/-- Counterexample to C1 as stated: with an out-of-range caller-supplied
initial bitrate (0), one update leaves the current bitrate at 0, below
`minBitrate = 500 000` — nothing clamps the current bitrate itself. -/
theorem bitrateInvariant_counterexample :
    (updateNetworkStats sZero (mkAdaptiveBitrate 0)).current_bitrate
      < (mkAdaptiveBitrate 0).min_bitrate := by
  have h : (updateNetworkStats sZero (mkAdaptiveBitrate 0)).current_bitrate = 0 := by
    norm_num [updateNetworkStats, detectCongestion, adjustBitrate, mkAdaptiveBitrate,
      dpush, lastN, npMean, npVar, sZero, pyInt]
  rw [h]
  show (0:ℤ) < 500000
  omega

theorem dpush_length {α : Type} (m : ℕ) (d : List α) (x : α) :
    (dpush m d x).length = min (d.length + 1) m := by
  simp [dpush]
  omega

theorem dpush_ne_nil {α : Type} (m : ℕ) (hm : 1 ≤ m) (d : List α) (x : α) :
    dpush m d x ≠ [] := by
  have h := dpush_length m d x
  intro hcon
  rw [hcon] at h
  simp at h
  omega

theorem smoothing_bounds {c t : ℤ} (hc1 : 500000 ≤ c) (hc2 : c ≤ 8000000)
    (ht1 : 500000 ≤ t) (ht2 : t ≤ 8000000) :
    500000 ≤ pyInt ((4/5) * (c:ℚ) + (1 - 4/5) * (t:ℚ)) ∧
    pyInt ((4/5) * (c:ℚ) + (1 - 4/5) * (t:ℚ)) ≤ 8000000 := by
  have hc1' : (500000:ℚ) ≤ (c:ℚ) := by exact_mod_cast hc1
  have hc2' : (c:ℚ) ≤ (8000000:ℚ) := by exact_mod_cast hc2
  have ht1' : (500000:ℚ) ≤ (t:ℚ) := by exact_mod_cast ht1
  have ht2' : (t:ℚ) ≤ (8000000:ℚ) := by exact_mod_cast ht2
  have h0 : (0:ℚ) ≤ (4/5) * (c:ℚ) + (1 - 4/5) * (t:ℚ) := by linarith
  constructor
  · refine le_pyInt h0 ?_
    push_cast
    linarith
  · refine pyInt_le h0 ?_
    push_cast
    linarith

theorem targetReduce_bounds {c : ℤ} (hc1 : 500000 ≤ c) (hc2 : c ≤ 8000000)
    {rf : ℚ} (hrf0 : 0 ≤ rf) (hrf1 : rf ≤ 1) :
    500000 ≤ max 500000 (pyInt ((c:ℚ) * rf)) ∧
    max 500000 (pyInt ((c:ℚ) * rf)) ≤ 8000000 := by
  have hc1' : (500000:ℚ) ≤ (c:ℚ) := by exact_mod_cast hc1
  have hc2' : (c:ℚ) ≤ (8000000:ℚ) := by exact_mod_cast hc2
  have hq0 : (0:ℚ) ≤ (c:ℚ) * rf := mul_nonneg (by linarith) hrf0
  refine ⟨le_max_left _ _, max_le (by omega) (pyInt_le hq0 ?_)⟩
  push_cast
  nlinarith

theorem targetIncrease_bounds {c : ℤ} (hc1 : 500000 ≤ c) :
    500000 ≤ min 8000000 (pyInt ((c:ℚ) * (11/10))) ∧
    min 8000000 (pyInt ((c:ℚ) * (11/10))) ≤ 8000000 := by
  have hc1' : (500000:ℚ) ≤ (c:ℚ) := by exact_mod_cast hc1
  have hq0 : (0:ℚ) ≤ (c:ℚ) * (11/10) := by nlinarith
  refine ⟨le_min (by omega) (le_pyInt hq0 ?_), min_le_left _ _⟩
  push_cast
  nlinarith

theorem adjustBitrate_fields (st : ABState) (hne : st.throughput_history ≠ []) :
    ∃ t : ℤ, (adjustBitrate st).target_bitrate = t ∧
      (adjustBitrate st).current_bitrate
        = pyInt (st.gamma * (st.current_bitrate:ℚ) + (1 - st.gamma) * (t:ℚ)) ∧
      (t = st.target_bitrate ∨
        (∃ rf : ℚ, (rf = 1/2 ∨ rf = 4/5 ∨ rf = 7/10) ∧
          t = max st.min_bitrate (pyInt ((st.current_bitrate:ℚ) * rf))) ∨
        t = min st.max_bitrate (pyInt ((st.current_bitrate:ℚ) * (11/10)))) := by
  simp only [adjustBitrate]
  rw [if_neg hne]
  split_ifs with hdet hcong huns hsm
  · exact ⟨_, rfl, rfl, Or.inr (Or.inl ⟨1/2, Or.inl rfl, rfl⟩)⟩
  · exact ⟨_, rfl, rfl, Or.inr (Or.inl ⟨4/5, Or.inr (Or.inl rfl), rfl⟩)⟩
  · exact ⟨_, rfl, rfl, Or.inr (Or.inl ⟨7/10, Or.inr (Or.inr rfl), rfl⟩)⟩
  · exact ⟨_, rfl, rfl, Or.inr (Or.inr rfl)⟩
  · exact ⟨st.target_bitrate, rfl, rfl, Or.inl rfl⟩

/-- The bitrate-controller invariant: the constant configuration fields plus
current and target bitrate within `[minBitrate, maxBitrate]`. -/
def ABInv (st : ABState) : Prop :=
  st.min_bitrate = 500000 ∧ st.max_bitrate = 8000000 ∧ st.gamma = 4/5 ∧
  500000 ≤ st.current_bitrate ∧ st.current_bitrate ≤ 8000000 ∧
  500000 ≤ st.target_bitrate ∧ st.target_bitrate ≤ 8000000

theorem ABInv_update (s : RTMPStats) (st : ABState) (h : ABInv st) :
    ABInv (updateNetworkStats s st) := by
  obtain ⟨hmin, hmax, hγ, h1, h2, h3, h4⟩ := h
  have hun : updateNetworkStats s st = adjustBitrate (detectCongestion
      { st with
          stats_window := dpush 100 st.stats_window s
          throughput_history := dpush 50 st.throughput_history s.throughput_bps }) := rfl
  set A := detectCongestion
      { st with
          stats_window := dpush 100 st.stats_window s
          throughput_history := dpush 50 st.throughput_history s.throughput_bps } with hA
  have hAmin : A.min_bitrate = 500000 := by
    rw [hA, (detectCongestion_minmax _).1]
    exact hmin
  have hAmax : A.max_bitrate = 8000000 := by
    rw [hA, (detectCongestion_minmax _).2.1]
    exact hmax
  have hAγ : A.gamma = 4/5 := by
    rw [hA, (detectCongestion_minmax _).2.2.1]
    exact hγ
  have hAcur : A.current_bitrate = st.current_bitrate := by
    rw [hA, detectCongestion_current]
  have hAtgt : A.target_bitrate = st.target_bitrate := by
    rw [hA, detectCongestion_target]
  have hAhist : A.throughput_history = dpush 50 st.throughput_history s.throughput_bps := by
    rw [hA, (detectCongestion_minmax _).2.2.2.2]
  have hne : A.throughput_history ≠ [] := by
    rw [hAhist]
    exact dpush_ne_nil 50 (by omega) _ _
  obtain ⟨t, htgt, hcur, hdisj⟩ := adjustBitrate_fields A hne
  have ht : 500000 ≤ t ∧ t ≤ 8000000 := by
    rcases hdisj with heq | ⟨rf, hrf, heq⟩ | heq
    · rw [heq, hAtgt]
      exact ⟨h3, h4⟩
    · rw [heq, hAmin, hAcur]
      have hrfb : 0 ≤ rf ∧ rf ≤ 1 := by
        rcases hrf with rfl | rfl | rfl <;> norm_num
      exact targetReduce_bounds h1 h2 hrfb.1 hrfb.2
    · rw [heq, hAmax, hAcur]
      exact targetIncrease_bounds h1
  have hcur2 : (adjustBitrate A).current_bitrate
      = pyInt ((4/5) * (st.current_bitrate:ℚ) + (1 - 4/5) * (t:ℚ)) := by
    rw [hcur, hAγ, hAcur]
  refine ⟨?_, ?_, ?_, ?_, ?_, ?_, ?_⟩
  · rw [hun, (adjustBitrate_preserved A).1]
    exact hAmin
  · rw [hun, (adjustBitrate_preserved A).2.1]
    exact hAmax
  · rw [hun, (adjustBitrate_preserved A).2.2.1]
    exact hAγ
  · rw [hun, hcur2]
    exact (smoothing_bounds h1 h2 ht.1 ht.2).1
  · rw [hun, hcur2]
    exact (smoothing_bounds h1 h2 ht.1 ht.2).2
  · rw [hun, htgt]
    exact ht.1
  · rw [hun, htgt]
    exact ht.2

theorem ABInv_foldl (samples : List RTMPStats) :
    ∀ st : ABState, ABInv st →
      ABInv (samples.foldl (fun st s => updateNetworkStats s st) st) := by
  induction samples with
  | nil => exact fun st h => h
  | cons s rest ih => exact fun st h => ih (updateNetworkStats s st) (ABInv_update s st h)

/-- Claim C1, amended: provided the caller-supplied initial bitrate lies in
`[minBitrate, maxBitrate]`, every sequence of updates keeps
`minBitrate ≤ currentBitrate ≤ maxBitrate`; the bounds are maintained by the
clamping of the target in each branch together with the convex smoothing step
(the current bitrate itself is never explicitly clamped). -/
theorem bitrateInvariant_inRange (initial : ℤ) (samples : List RTMPStats)
    (hlo : 500000 ≤ initial) (hhi : initial ≤ 8000000) :
    500000 ≤ (samples.foldl (fun st s => updateNetworkStats s st)
        (mkAdaptiveBitrate initial)).current_bitrate ∧
    (samples.foldl (fun st s => updateNetworkStats s st)
        (mkAdaptiveBitrate initial)).current_bitrate ≤ 8000000 := by
  have h0 : ABInv (mkAdaptiveBitrate initial) :=
    ⟨rfl, rfl, rfl, hlo, hhi, hlo, hhi⟩
  have h := ABInv_foldl samples (mkAdaptiveBitrate initial) h0
  exact ⟨h.2.2.2.1, h.2.2.2.2.1⟩

/-- Witness for C1 (amended): the in-range initial bitrate 3 000 000 with the
single scenario sample. -/
theorem bitrateInvariant_inRange_witness :
    500000 ≤ (([sC5] : List RTMPStats).foldl (fun st s => updateNetworkStats s st)
        (mkAdaptiveBitrate 3000000)).current_bitrate ∧
    (([sC5] : List RTMPStats).foldl (fun st s => updateNetworkStats s st)
        (mkAdaptiveBitrate 3000000)).current_bitrate ≤ 8000000 :=
  bitrateInvariant_inRange 3000000 [sC5] (by omega) (by omega)

/-- The C8 scenario sample: 10% packet loss, everything else zero. -/
def sC8 : RTMPStats := { packet_loss_rate := 1/10 }

/-- The controller state after `n` updates with `sC8` from the default
initial bitrate 3 000 000. -/
def c8state (n : ℕ) : ABState :=
  (updateNetworkStats sC8)^[n] (mkAdaptiveBitrate 3000000)

/-- One congested-mode bitrate step: target `max(min, int(c·0.5))`, then
smoothing `int(0.8·c + 0.2·target)`. -/
def adjStepC8 (c : ℤ) : ℤ :=
  pyInt ((4/5 : ℚ) * (c:ℚ) + (1 - 4/5) * ((max 500000 (pyInt ((c:ℚ) * (1/2))) : ℤ) : ℚ))

theorem dpush_replicate {α : Type} (m k : ℕ) (a : α) :
    dpush m (List.replicate k a) a = List.replicate (min (k+1) m) a := by
  show (List.replicate k a ++ [a]).drop ((List.replicate k a ++ [a]).length - m)
      = List.replicate (min (k+1) m) a
  rw [← List.replicate_succ', List.drop_replicate, List.length_replicate]
  congr 1
  omega

theorem lastN_replicate {α : Type} (n k : ℕ) (a : α) :
    lastN n (List.replicate k a) = List.replicate (min n k) a := by
  rw [lastN, List.length_replicate, List.drop_replicate]
  congr 1
  omega

theorem npMean_replicate (k : ℕ) (q : ℚ) (hk : k ≠ 0) :
    npMean (List.replicate k q) = q := by
  rw [npMean, List.sum_replicate, List.length_replicate, nsmul_eq_mul]
  exact mul_div_cancel_left₀ q (Nat.cast_ne_zero.mpr hk)

theorem replicate_ne_nil {α : Type} (m : ℕ) (hm : m ≠ 0) (a : α) :
    List.replicate m a ≠ [] := by
  intro h
  have hlen := congrArg List.length h
  rw [List.length_replicate] at hlen
  simp at hlen
  omega

theorem updateNetworkStats_history (s : RTMPStats) (st : ABState) :
    (updateNetworkStats s st).throughput_history
      = dpush 50 st.throughput_history s.throughput_bps := by
  unfold updateNetworkStats
  rw [(adjustBitrate_preserved _).2.2.2.2.1, (detectCongestion_minmax _).2.2.2.2]

theorem updateNetworkStats_config (s : RTMPStats) (st : ABState) :
    (updateNetworkStats s st).min_bitrate = st.min_bitrate ∧
    (updateNetworkStats s st).max_bitrate = st.max_bitrate ∧
    (updateNetworkStats s st).gamma = st.gamma := by
  unfold updateNetworkStats
  refine ⟨?_, ?_, ?_⟩
  · rw [(adjustBitrate_preserved _).1, (detectCongestion_minmax _).1]
  · rw [(adjustBitrate_preserved _).2.1, (detectCongestion_minmax _).2.1]
  · rw [(adjustBitrate_preserved _).2.2.1, (detectCongestion_minmax _).2.2.1]

theorem c8_detect (st : ABState) (k : ℕ) (hk : 10 ≤ k)
    (hw : st.stats_window = List.replicate k sC8) :
    detectCongestion st = { st with
      congestion_detected := true
      network_state := NetworkState.congested } := by
  simp only [detectCongestion]
  rw [hw, List.length_replicate, if_neg (by omega), lastN_replicate, List.map_replicate]
  rw [show min 10 k = 10 by omega]
  rw [show sC8.packet_loss_rate = 1/10 from rfl]
  rw [npMean_replicate 10 (1/10) (by omega)]
  rw [if_pos (by norm_num : (1:ℚ)/10 > 1/20)]

theorem c8_adjust (st : ABState)
    (hdet : st.congestion_detected = true)
    (hstate : st.network_state = NetworkState.congested)
    (hmin : st.min_bitrate = 500000) (hg : st.gamma = 4/5)
    (hne : st.throughput_history ≠ []) :
    (adjustBitrate st).current_bitrate = adjStepC8 st.current_bitrate ∧
    (adjustBitrate st).target_bitrate
      = max 500000 (pyInt ((st.current_bitrate : ℚ) * (1/2))) := by
  simp only [adjustBitrate]
  rw [if_neg hne, hdet, hstate, hmin, hg]
  exact ⟨rfl, rfl⟩

theorem c8_adjust_idle (st : ABState)
    (hdet : st.congestion_detected = false)
    (hcur : st.current_bitrate = 3000000) (htgt : st.target_bitrate = 3000000)
    (hg : st.gamma = 4/5)
    (hhist : ∃ k : ℕ, k ≠ 0 ∧ st.throughput_history = List.replicate k (0:ℚ)) :
    (adjustBitrate st).current_bitrate = 3000000 ∧
    (adjustBitrate st).target_bitrate = 3000000 := by
  obtain ⟨k, hk, hh⟩ := hhist
  have hne : st.throughput_history ≠ [] := by
    rw [hh]
    exact replicate_ne_nil k hk 0
  have hsm : npMean (lastN 5 st.throughput_history) = 0 := by
    rw [hh, lastN_replicate, npMean_replicate _ _ (by omega)]
  simp only [adjustBitrate]
  rw [if_neg hne, hdet, if_neg Bool.false_ne_true, hsm, hcur]
  rw [if_neg (by norm_num : ¬ ((0:ℚ) > ((3000000:ℤ):ℚ) * (6/5)))]
  rw [hcur, htgt, hg]
  refine ⟨?_, rfl⟩
  show pyInt ((4/5 : ℚ) * ((3000000:ℤ):ℚ) + (1 - 4/5) * ((3000000:ℤ):ℚ)) = 3000000
  rw [show (4/5 : ℚ) * ((3000000:ℤ):ℚ) + (1 - 4/5) * ((3000000:ℤ):ℚ)
      = ((3000000:ℤ):ℚ) by push_cast; norm_num]
  exact pyInt_intCast 3000000

theorem adjStepC8_target_le {c : ℤ} (hc : 500000 ≤ c) :
    max 500000 (pyInt ((c:ℚ) * (1/2))) ≤ c := by
  have hc' : (500000:ℚ) ≤ (c:ℚ) := by exact_mod_cast hc
  have hq0 : (0:ℚ) ≤ (c:ℚ) * (1/2) := by nlinarith
  refine max_le hc (pyInt_le hq0 ?_)
  nlinarith

theorem adjStepC8_target_lt {c : ℤ} (hc : 500000 < c) :
    max 500000 (pyInt ((c:ℚ) * (1/2))) < c := by
  have hc' : (500000:ℚ) < (c:ℚ) := by exact_mod_cast hc
  have hq0 : (0:ℚ) ≤ (c:ℚ) * (1/2) := by nlinarith
  refine max_lt hc (pyInt_lt hq0 ?_)
  nlinarith

theorem adjStepC8_ge {c : ℤ} (hc : 500000 ≤ c) : 500000 ≤ adjStepC8 c := by
  have hc' : (500000:ℚ) ≤ (c:ℚ) := by exact_mod_cast hc
  have ht : (500000:ℤ) ≤ max 500000 (pyInt ((c:ℚ) * (1/2))) := le_max_left _ _
  have ht' : (500000:ℚ) ≤ ((max 500000 (pyInt ((c:ℚ) * (1/2))) : ℤ) : ℚ) := by
    exact_mod_cast ht
  have h0 : (0:ℚ) ≤ (4/5 : ℚ) * (c:ℚ)
      + (1 - 4/5) * ((max 500000 (pyInt ((c:ℚ) * (1/2))) : ℤ) : ℚ) := by linarith
  refine le_pyInt h0 ?_
  push_cast
  push_cast at ht'
  linarith

theorem adjStepC8_le {c : ℤ} (hc : 500000 ≤ c) : adjStepC8 c ≤ c := by
  have hc' : (500000:ℚ) ≤ (c:ℚ) := by exact_mod_cast hc
  have ht : max 500000 (pyInt ((c:ℚ) * (1/2))) ≤ c := adjStepC8_target_le hc
  have ht' : ((max 500000 (pyInt ((c:ℚ) * (1/2))) : ℤ) : ℚ) ≤ (c:ℚ) := by exact_mod_cast ht
  have ht0 : (500000:ℚ) ≤ ((max 500000 (pyInt ((c:ℚ) * (1/2))) : ℤ) : ℚ) := by
    exact_mod_cast (le_max_left (500000:ℤ) _)
  have h0 : (0:ℚ) ≤ (4/5 : ℚ) * (c:ℚ)
      + (1 - 4/5) * ((max 500000 (pyInt ((c:ℚ) * (1/2))) : ℤ) : ℚ) := by linarith
  refine pyInt_le h0 ?_
  linarith

theorem adjStepC8_lt {c : ℤ} (hc : 500000 < c) : adjStepC8 c < c := by
  have hc' : (500000:ℚ) < (c:ℚ) := by exact_mod_cast hc
  have ht : max 500000 (pyInt ((c:ℚ) * (1/2))) < c := adjStepC8_target_lt hc
  have ht' : ((max 500000 (pyInt ((c:ℚ) * (1/2))) : ℤ) : ℚ) < (c:ℚ) := by exact_mod_cast ht
  have ht0 : (500000:ℚ) ≤ ((max 500000 (pyInt ((c:ℚ) * (1/2))) : ℤ) : ℚ) := by
    exact_mod_cast (le_max_left (500000:ℤ) _)
  have h0 : (0:ℚ) ≤ (4/5 : ℚ) * (c:ℚ)
      + (1 - 4/5) * ((max 500000 (pyInt ((c:ℚ) * (1/2))) : ℤ) : ℚ) := by linarith
  refine pyInt_lt h0 ?_
  linarith

theorem adjStepC8_fix : adjStepC8 500000 = 500000 := by
  rw [adjStepC8]
  rw [show ((500000:ℤ):ℚ) * (1/2) = ((250000:ℤ):ℚ) by push_cast; norm_num]
  rw [pyInt_intCast]
  rw [show max (500000:ℤ) 250000 = 500000 by omega]
  rw [show (4/5 : ℚ) * ((500000:ℤ):ℚ) + (1 - 4/5) * ((500000:ℤ):ℚ)
      = ((500000:ℤ):ℚ) by push_cast; norm_num]
  exact pyInt_intCast 500000

theorem adjStepC8_iter_fix (k : ℕ) : adjStepC8^[k] 500000 = 500000 := by
  induction k with
  | zero => rfl
  | succ k ih => rw [Function.iterate_succ_apply', ih, adjStepC8_fix]

theorem adjStepC8_reach_aux (m : ℕ) :
    ∀ c : ℤ, 500000 ≤ c → (c - 500000).toNat ≤ m →
      ∃ k, adjStepC8^[k] c = 500000 := by
  induction m with
  | zero =>
    intro c hc hm
    have hceq : c = 500000 := by omega
    exact ⟨0, by rw [hceq]; rfl⟩
  | succ m ih =>
    intro c hc hm
    by_cases h : c = 500000
    · exact ⟨0, by rw [h]; rfl⟩
    · have hlt : 500000 < c := lt_of_le_of_ne hc (Ne.symm h)
      have h2 := adjStepC8_lt hlt
      obtain ⟨k, hk⟩ := ih (adjStepC8 c) (adjStepC8_ge hc) (by omega)
      exact ⟨k + 1, by rw [Function.iterate_succ_apply, hk]⟩

theorem detect_skip (st : ABState) (hlen : st.stats_window.length < 10) :
    detectCongestion st = st := by
  simp only [detectCongestion]
  rw [if_pos hlen]

theorem c8_update_congested (st : ABState) (k j : ℕ) (hk : 9 ≤ k)
    (hw : st.stats_window = List.replicate k sC8)
    (hh : st.throughput_history = List.replicate j (0:ℚ))
    (hmin : st.min_bitrate = 500000) (hg : st.gamma = 4/5) :
    (updateNetworkStats sC8 st).current_bitrate = adjStepC8 st.current_bitrate ∧
    (updateNetworkStats sC8 st).network_state = NetworkState.congested ∧
    (updateNetworkStats sC8 st).congestion_detected = true := by
  have hun : updateNetworkStats sC8 st = adjustBitrate (detectCongestion
      { st with
          stats_window := dpush 100 st.stats_window sC8
          throughput_history := dpush 50 st.throughput_history sC8.throughput_bps }) := rfl
  have hP : ({ st with
      stats_window := dpush 100 st.stats_window sC8
      throughput_history := dpush 50 st.throughput_history sC8.throughput_bps } : ABState)
      = { st with
          stats_window := List.replicate (min (k+1) 100) sC8
          throughput_history := List.replicate (min (j+1) 50) (0:ℚ) } := by
    rw [hw, hh, show sC8.throughput_bps = 0 from rfl, dpush_replicate, dpush_replicate]
  rw [hun, hP]
  rw [c8_detect _ (min (k+1) 100) (by omega) rfl]
  have hadj := c8_adjust
    ({ st with
        stats_window := List.replicate (min (k+1) 100) sC8
        throughput_history := List.replicate (min (j+1) 50) (0:ℚ)
        congestion_detected := true
        network_state := NetworkState.congested } : ABState)
    rfl rfl hmin hg (replicate_ne_nil (min (j+1) 50) (by omega) (0:ℚ))
  refine ⟨hadj.1, ?_, ?_⟩
  · rw [(adjustBitrate_preserved _).2.2.2.2.2.1]
  · rw [(adjustBitrate_preserved _).2.2.2.2.2.2]

theorem c8_update_idle (st : ABState) (k : ℕ) (hk : k + 1 < 10)
    (hw : st.stats_window = List.replicate k sC8)
    (hh : st.throughput_history = List.replicate k (0:ℚ))
    (hdet : st.congestion_detected = false)
    (hcur : st.current_bitrate = 3000000) (htgt : st.target_bitrate = 3000000)
    (hg : st.gamma = 4/5) :
    (updateNetworkStats sC8 st).current_bitrate = 3000000 ∧
    (updateNetworkStats sC8 st).target_bitrate = 3000000 ∧
    (updateNetworkStats sC8 st).congestion_detected = false := by
  have hun : updateNetworkStats sC8 st = adjustBitrate (detectCongestion
      { st with
          stats_window := dpush 100 st.stats_window sC8
          throughput_history := dpush 50 st.throughput_history sC8.throughput_bps }) := rfl
  have hP : ({ st with
      stats_window := dpush 100 st.stats_window sC8
      throughput_history := dpush 50 st.throughput_history sC8.throughput_bps } : ABState)
      = { st with
          stats_window := List.replicate (k+1) sC8
          throughput_history := List.replicate (k+1) (0:ℚ) } := by
    rw [hw, hh, show sC8.throughput_bps = 0 from rfl, dpush_replicate, dpush_replicate]
    rw [show min (k+1) 100 = k + 1 by omega, show min (k+1) 50 = k + 1 by omega]
  rw [hun, hP]
  rw [detect_skip _ (by simp; omega)]
  have hadj := c8_adjust_idle
    ({ st with
        stats_window := List.replicate (k+1) sC8
        throughput_history := List.replicate (k+1) (0:ℚ) } : ABState)
    hdet hcur htgt hg ⟨k+1, by omega, rfl⟩
  refine ⟨hadj.1, hadj.2, ?_⟩
  rw [(adjustBitrate_preserved _).2.2.2.2.2.2]
  exact hdet

/-- The trajectory invariant of the C8 scenario after `n` updates. -/
def InvC8 (n : ℕ) (st : ABState) : Prop :=
  st.stats_window = List.replicate (min n 100) sC8 ∧
  st.throughput_history = List.replicate (min n 50) (0:ℚ) ∧
  st.min_bitrate = 500000 ∧ st.max_bitrate = 8000000 ∧ st.gamma = 4/5 ∧
  500000 ≤ st.current_bitrate ∧
  (n < 10 → st.current_bitrate = 3000000 ∧ st.target_bitrate = 3000000 ∧
    st.congestion_detected = false) ∧
  (10 ≤ n → st.network_state = NetworkState.congested ∧
    st.congestion_detected = true)

theorem c8_inv (n : ℕ) : InvC8 n (c8state n) := by
  induction n with
  | zero =>
    refine ⟨rfl, rfl, rfl, rfl, rfl, ?_, fun _ => ⟨rfl, rfl, rfl⟩,
      fun h => absurd h (by omega)⟩
    show (500000:ℤ) ≤ 3000000
    omega
  | succ n ih =>
    obtain ⟨ihw, ihh, ihmin, ihmax, ihg, ihcur, ihlt, ihge⟩ := ih
    have hsucc : c8state (n+1) = updateNetworkStats sC8 (c8state n) :=
      Function.iterate_succ_apply' _ _ _
    have hw' : (c8state (n+1)).stats_window = List.replicate (min (n+1) 100) sC8 := by
      rw [hsucc, updateNetworkStats_window, ihw, dpush_replicate]
      congr 1
      omega
    have hh' : (c8state (n+1)).throughput_history
        = List.replicate (min (n+1) 50) (0:ℚ) := by
      rw [hsucc, updateNetworkStats_history, ihh, show sC8.throughput_bps = 0 from rfl,
        dpush_replicate]
      congr 1
      omega
    have hcfg := updateNetworkStats_config sC8 (c8state n)
    by_cases hn : n + 1 < 10
    · have hwn : (c8state n).stats_window = List.replicate n sC8 := by
        rw [ihw, show min n 100 = n by omega]
      have hhn : (c8state n).throughput_history = List.replicate n (0:ℚ) := by
        rw [ihh, show min n 50 = n by omega]
      have hpre := ihlt (by omega)
      have hidle := c8_update_idle (c8state n) n hn hwn hhn hpre.2.2 hpre.1 hpre.2.1 ihg
      refine ⟨hw', hh', by rw [hsucc, hcfg.1]; exact ihmin,
        by rw [hsucc, hcfg.2.1]; exact ihmax, by rw [hsucc, hcfg.2.2]; exact ihg,
        ?_, fun _ => ⟨by rw [hsucc]; exact hidle.1, by rw [hsucc]; exact hidle.2.1,
          by rw [hsucc]; exact hidle.2.2⟩, fun h => absurd h (by omega)⟩
      rw [hsucc, hidle.1]
      omega
    · have hcong := c8_update_congested (c8state n) (min n 100) (min n 50)
        (by omega) ihw ihh ihmin ihg
      refine ⟨hw', hh', by rw [hsucc, hcfg.1]; exact ihmin,
        by rw [hsucc, hcfg.2.1]; exact ihmax, by rw [hsucc, hcfg.2.2]; exact ihg,
        ?_, fun h => absurd h (by omega),
        fun _ => ⟨by rw [hsucc]; exact hcong.2.1, by rw [hsucc]; exact hcong.2.2⟩⟩
      rw [hsucc, hcong.1]
      exact adjStepC8_ge ihcur

theorem c8_step_current (n : ℕ) (hn : 9 ≤ n) :
    (c8state (n+1)).current_bitrate = adjStepC8 ((c8state n).current_bitrate) := by
  obtain ⟨ihw, ihh, ihmin, _, ihg, _, _, _⟩ := c8_inv n
  have hcong := c8_update_congested (c8state n) (min n 100) (min n 50)
    (by omega) ihw ihh ihmin ihg
  rw [show c8state (n+1) = updateNetworkStats sC8 (c8state n) from
    Function.iterate_succ_apply' _ _ _]
  exact hcong.1

theorem c8_traj (k : ℕ) :
    (c8state (10 + k)).current_bitrate
      = adjStepC8^[k] ((c8state 10).current_bitrate) := by
  induction k with
  | zero => rfl
  | succ k ih =>
    rw [show 10 + (k+1) = (10 + k) + 1 by omega, c8_step_current (10+k) (by omega), ih,
      Function.iterate_succ_apply']

/-- Claim C8: ten updates at 10% packet loss drive the network state to
`congested` and keep it there; from then on the current bitrate is
monotonically non-increasing, always at least `minBitrate`, and eventually
constant (a fixed point ≥ `minBitrate`). -/
theorem congested_monotone_fixpoint :
    (∀ n, 10 ≤ n → (c8state n).network_state = NetworkState.congested) ∧
    (∀ n, 10 ≤ n → (c8state (n+1)).current_bitrate ≤ (c8state n).current_bitrate) ∧
    (∀ n, 500000 ≤ (c8state n).current_bitrate) ∧
    (∃ N, 500000 ≤ (c8state N).current_bitrate ∧
      ∀ m, N ≤ m → (c8state m).current_bitrate = (c8state N).current_bitrate) := by
  have hbound : ∀ n, 500000 ≤ (c8state n).current_bitrate :=
    fun n => (c8_inv n).2.2.2.2.2.1
  refine ⟨fun n hn => ((c8_inv n).2.2.2.2.2.2.2 hn).1, fun n hn => ?_, hbound, ?_⟩
  · rw [c8_step_current n (by omega)]
    exact adjStepC8_le (hbound n)
  · obtain ⟨k0, hk0⟩ := adjStepC8_reach_aux
      (((c8state 10).current_bitrate - 500000).toNat)
      ((c8state 10).current_bitrate) (hbound 10) (le_refl _)
    have hstay : ∀ d : ℕ, adjStepC8^[k0 + d] ((c8state 10).current_bitrate) = 500000 := by
      intro d
      rw [Nat.add_comm k0 d, Function.iterate_add_apply, hk0, adjStepC8_iter_fix]
    refine ⟨10 + k0, hbound _, fun m hm => ?_⟩
    rw [show m = 10 + (k0 + (m - (10 + k0))) by omega, c8_traj, c8_traj]
    rw [hstay (m - (10 + k0)), show k0 = k0 + 0 by omega, hstay 0]

/-- Witness for C8 at the first congested tick. -/
theorem congested_monotone_fixpoint_witness :
    (c8state 10).network_state = NetworkState.congested ∧
    (c8state 11).current_bitrate ≤ (c8state 10).current_bitrate :=
  ⟨congested_monotone_fixpoint.1 10 (by decide),
   congested_monotone_fixpoint.2.1 10 (by decide)⟩
